import Mathlib

/-!
Shallow embedding of the SCorePilot harmony rule engine
(`harmony_checker/analyzer.py`, `harmony_checker/utils.py`) together with
theorems checking the natural-language specification against it.

Modelling conventions:
* `Pitch` carries the music21 pitch-space value (`pitch.ps` / `pitch.midi`,
  an integer for ordinary notes) and the pitch name without octave
  (`pitch.name`, e.g. `"G"`, `"F#"`).
* A voice (`Part`) is the list of its note events in time order
  (`part.flatten().notes`); each `NoteEvent` keeps its representative pitch
  and its 1-based measure number (`note.measureNumber`).
* The harmonic reduction (`score.chordify()`, performed by the external
  music21 collaborator) is carried on the `Score` as the list `chordified`
  of reduced chords, each with its root pitch, inversion, measure number,
  common name, offset, and pitch tuple as music21 reports them.
* The detected `Key` (music21's external key analysis) is reduced to the
  pitch-class names of the scale degrees the engine and the claims consult.
* Exceptions that the Python code catches per-position (index errors on the
  second voice) are modelled by optional lookups contributing no findings.
-/

structure Pitch where
  ps : Int
  name : String
deriving DecidableEq, Repr

structure NoteEvent where
  pitch : Pitch
  measureNumber : Nat
deriving DecidableEq, Repr

structure ChordInfo where
  root : Pitch
  inversion : Nat
  measureNumber : Nat
  commonName : String
  offset : Rat
  pitches : List Pitch
deriving DecidableEq, Repr

structure Score where
  parts : List (List NoteEvent)
  measureCount : Nat
  chordified : List ChordInfo
deriving DecidableEq, Repr

/-- Modelled from the spec: the detected Key (supplied by the external
music21 key detector) reduced to the pitch-class names of the scale degrees
consumed by the engine and the claims — tonic (degree 1), subdominant
(degree 4), dominant (degree 5) and leading tone (degree 7,
`key.getLeadingTone().name`). -/
structure Key where
  degree1 : String
  degree4 : String
  degree5 : String
  degree7 : String
deriving DecidableEq, Repr

structure HarmonyError where
  type : String
  measure : Nat
  description : String
  severity : String
  voice1 : Option Nat
  voice2 : Option Nat
deriving DecidableEq, Repr

/-- Modelled from the spec: music21's `interval.Interval(...).simpleName`,
which the source delegates to the external library.  Per §4.1 the simple
name is derived from the absolute semitone distance reduced mod 12 through
the standard 12-class interval table (tritone rendered as augmented
fourth); a non-zero multiple of 12 reduces to a perfect octave. -/
def simpleNameOfSemis (d : Int) : String :=
  if d = 0 then "P1"
  else
    match d.natAbs % 12 with
    | 0 => "P8"
    | 1 => "m2"
    | 2 => "M2"
    | 3 => "m3"
    | 4 => "M3"
    | 5 => "P4"
    | 6 => "A4"
    | 7 => "P5"
    | 8 => "m6"
    | 9 => "M6"
    | 10 => "m7"
    | _ => "M7"

/-- `interval.Interval(noteStart := a, noteEnd := b).simpleName`. -/
def simpleName (a b : Pitch) : String :=
  simpleNameOfSemis (b.ps - a.ps)

/-- Modelled from the spec: `Interval.isAugmented` of the external library,
true when the simple name carries an augmented quality (§4.1). -/
def isAugmentedName (nm : String) : Bool :=
  nm == "A4"

/-- Loop body of `check_parallel_fifths` at position `i` for the voice pair
`(p1, p2)`: both time-aligned intervals must be perfect fifths and the
motion product strictly positive (similar motion).  An out-of-range index
on either voice raises in Python and is caught (`continue`), contributing
no finding. -/
def pfStep (notes1 notes2 : List NoteEvent) (p1 p2 i : Nat) : List HarmonyError :=
  match notes1[i]?, notes1[i+1]?, notes2[i]?, notes2[i+1]? with
  | some a1, some b1, some a2, some b2 =>
    if simpleName a1.pitch a2.pitch == "P5" && simpleName b1.pitch b2.pitch == "P5" then
      let motion1 := b1.pitch.ps - a1.pitch.ps
      let motion2 := b2.pitch.ps - a2.pitch.ps
      if motion1 * motion2 > 0 then
        [{ type := "Parallel Fifths"
           measure := a1.measureNumber
           description := "Parallel fifth movement between voices " ++ toString (p1 + 1) ++ " and " ++ toString (p2 + 1)
           severity := "high"
           voice1 := some (p1 + 1)
           voice2 := some (p2 + 1) }]
      else []
    else []
  | _, _, _, _ => []

/-- `HarmonyAnalyzer.check_parallel_fifths`. -/
def check_parallel_fifths (s : Score) : List HarmonyError :=
  if s.parts.length < 2 then []
  else
    (List.range (s.parts.length - 1)).flatMap fun p1 =>
      (List.range' (p1 + 1) (s.parts.length - (p1 + 1))).flatMap fun p2 =>
        let notes1 := s.parts.getD p1 []
        let notes2 := s.parts.getD p2 []
        (List.range (notes1.length - 1)).flatMap (pfStep notes1 notes2 p1 p2)

/-- Loop body of `check_parallel_octaves` at position `i`. -/
def poStep (notes1 notes2 : List NoteEvent) (p1 p2 i : Nat) : List HarmonyError :=
  match notes1[i]?, notes1[i+1]?, notes2[i]?, notes2[i+1]? with
  | some a1, some b1, some a2, some b2 =>
    if simpleName a1.pitch a2.pitch == "P8" && simpleName b1.pitch b2.pitch == "P8" then
      let motion1 := b1.pitch.ps - a1.pitch.ps
      let motion2 := b2.pitch.ps - a2.pitch.ps
      if motion1 * motion2 > 0 then
        [{ type := "Parallel Octaves"
           measure := a1.measureNumber
           description := "Parallel octave movement between voices " ++ toString (p1 + 1) ++ " and " ++ toString (p2 + 1)
           severity := "high"
           voice1 := some (p1 + 1)
           voice2 := some (p2 + 1) }]
      else []
    else []
  | _, _, _, _ => []

/-- `HarmonyAnalyzer.check_parallel_octaves`. -/
def check_parallel_octaves (s : Score) : List HarmonyError :=
  if s.parts.length < 2 then []
  else
    (List.range (s.parts.length - 1)).flatMap fun p1 =>
      (List.range' (p1 + 1) (s.parts.length - (p1 + 1))).flatMap fun p2 =>
        let notes1 := s.parts.getD p1 []
        let notes2 := s.parts.getD p2 []
        (List.range (notes1.length - 1)).flatMap (poStep notes1 notes2 p1 p2)

/-- Finding emitted when an upper voice crosses below the adjacent lower
voice (`check_voice_leading`, voice-crossing clause). -/
def crossingFinding (partIdx : Nat) (a : NoteEvent) : HarmonyError :=
  { type := "Voice Crossing"
    measure := a.measureNumber
    description := "Voice " ++ toString (partIdx + 1) ++ " crosses below voice " ++ toString (partIdx + 2)
    severity := "medium"
    voice1 := some (partIdx + 1)
    voice2 := some (partIdx + 2) }

/-- One iteration of the inner loop of `check_voice_leading` at position
`i` of voice `partIdx`, threading the `consecutive_leaps` counter.
Returns the findings of this iteration and the updated counter. -/
def vlStep (parts : List (List NoteEvent)) (partIdx : Nat)
    (notes : List NoteEvent) (i cl : Nat) : List HarmonyError × Nat :=
  match notes[i]?, notes[i+1]? with
  | some a, some b =>
    let intervalSize := (b.pitch.ps - a.pitch.ps).natAbs
    let leapPart : List HarmonyError × Nat :=
      if intervalSize > 12 then
        ([{ type := "Large Leap"
            measure := a.measureNumber
            description := "Large melodic leap of " ++ toString intervalSize ++ " semitones in voice " ++ toString (partIdx + 1)
            severity := "medium"
            voice1 := some (partIdx + 1)
            voice2 := none }], cl + 1)
      else if intervalSize > 4 then ([], cl + 1)
      else ([], 0)
    let consecPart : List HarmonyError :=
      if leapPart.2 > 2 then
        [{ type := "Consecutive Leaps"
           measure := a.measureNumber
           description := "Too many consecutive leaps in voice " ++ toString (partIdx + 1)
           severity := "medium"
           voice1 := some (partIdx + 1)
           voice2 := none }]
      else []
    let crossPart : List HarmonyError :=
      if partIdx < parts.length - 1 then
        match (parts.getD (partIdx + 1) [])[i]? with
        | some c => if a.pitch.ps < c.pitch.ps then [crossingFinding partIdx a] else []
        | none => []
      else []
    (leapPart.1 ++ consecPart ++ crossPart, leapPart.2)
  | _, _ => ([], cl)

/-- Drives `vlStep` over positions `i, i+1, …` for `fuel` iterations,
starting from consecutive-leap counter `cl`. -/
def vlLoop (parts : List (List NoteEvent)) (partIdx : Nat)
    (notes : List NoteEvent) (cl i : Nat) : Nat → List HarmonyError
  | 0 => []
  | fuel + 1 =>
    let step := vlStep parts partIdx notes i cl
    step.1 ++ vlLoop parts partIdx notes step.2 (i + 1) fuel

/-- `HarmonyAnalyzer.check_voice_leading`. -/
def check_voice_leading (s : Score) : List HarmonyError :=
  (List.range s.parts.length).flatMap fun partIdx =>
    let notes := s.parts.getD partIdx []
    vlLoop s.parts partIdx notes 0 0 (notes.length - 1)

/-- Body of the chord-progression walk of `check_chord_progressions`,
threading `prev_chord` and `prev_root` exactly as the source does:
`prev_root` is only assigned inside the `if prev_chord:` block, so the
root-progression comparisons begin with the third chord. -/
def cpLoop : Option ChordInfo → Option Pitch → List ChordInfo → List HarmonyError
  | _, _, [] => []
  | none, pr, c :: rest => cpLoop (some c) pr rest
  | some _, pr, c :: rest =>
    let invErrs : List HarmonyError :=
      if c.inversion ≠ 0 then
        [{ type := "Chord Position"
           measure := c.measureNumber
           description := "Non-root position chord: " ++ c.commonName
           severity := "low"
           voice1 := none
           voice2 := none }]
      else []
    let progErrs : List HarmonyError :=
      match pr with
      | none => []
      | some prRoot =>
        (if prRoot.name == "G" && c.root.name == "F" then
          [{ type := "Weak Progression"
             measure := c.measureNumber
             description := "V-IV progression (retrograde)"
             severity := "medium"
             voice1 := none
             voice2 := none }]
        else []) ++
        (if simpleName prRoot c.root == "P5" then
          [{ type := "Root Motion"
             measure := c.measureNumber
             description := "Parallel fifths in root motion"
             severity := "low"
             voice1 := none
             voice2 := none }]
        else [])
    invErrs ++ progErrs ++ cpLoop (some c) (some c.root) rest

/-- `HarmonyAnalyzer.check_chord_progressions`. -/
def check_chord_progressions (s : Score) : List HarmonyError :=
  cpLoop none none s.chordified

/-- Cadence classification of the last two reduced chords
(`check_cadences`): root names are matched literally against `'G'`/`'C'`
(authentic) and `'F'`/`'C'` (plagal). -/
def cadenceCore (pen fin : ChordInfo) : List HarmonyError :=
  if pen.root.name == "G" && fin.root.name == "C" then
    if fin.inversion ≠ 0 then
      [{ type := "Cadence"
         measure := fin.measureNumber
         description := "Final chord not in root position"
         severity := "high"
         voice1 := none
         voice2 := none }]
    else []
  else if pen.root.name == "F" && fin.root.name == "C" then
    [{ type := "Cadence"
       measure := fin.measureNumber
       description := "Plagal cadence - consider authentic cadence instead"
       severity := "medium"
       voice1 := none
       voice2 := none }]
  else
    [{ type := "Cadence"
       measure := fin.measureNumber
       description := "Non-standard final cadence"
       severity := "high"
       voice1 := none
       voice2 := none }]

/-- `HarmonyAnalyzer.check_cadences`; skipped entirely when no key was
detected, and when fewer than two reduced chords exist. -/
def check_cadences (key? : Option Key) (s : Score) : List HarmonyError :=
  match key? with
  | none => []
  | some _ =>
    match s.chordified.reverse with
    | finalChord :: penChord :: _ => cadenceCore penChord finalChord
    | _ => []

/-- Modelled from the external music21 library: `Stream.measures` requires
both positional arguments `numberStart` and `numberEnd`.  The
single-argument per-measure calls `part.measures(measure_range)` made by
`check_voice_spacing` (analyzer.py line 358) and
`check_doubled_leading_tone` (line 580) therefore raise `TypeError` before
selecting any notes; every other call site correctly passes two
arguments. -/
def measuresWithSingleArg (_part : List NoteEvent) (designator : String) :
    Except String (List NoteEvent) :=
  Except.error ("TypeError: measures() missing 1 required positional argument: numberEnd ("
    ++ designator ++ ")")

/-- `len(self.score.measures(0, None))`, the bound of the per-measure
loops: the length of the measure-sliced Score counts its top-level
elements — one sliced part per part — not the measures. -/
def measuresSliceLen (s : Score) : Nat :=
  s.parts.length

/-- Innermost body of `check_voice_spacing` for measure `m` and voice pair
`(p1, p2)`: the first voice's notes for the measure are requested through
the single-argument `measures` call, which raises, so the zip against the
second voice's full note list is never reached. -/
def spacingPairFindings (parts : List (List NoteEvent)) (m p1 p2 : Nat) :
    Except String (List HarmonyError) :=
  match measuresWithSingleArg (parts.getD p1 []) (toString m ++ "/" ++ toString m) with
  | Except.error e => Except.error e
  | Except.ok notes1 =>
    let notes2 := parts.getD p2 []
    Except.ok ((notes1.zip notes2).flatMap fun nn =>
      let d := nn.2.pitch.ps - nn.1.pitch.ps
      (if p1 < parts.length - 2 && d > 12 then
        [{ type := "Voice Spacing"
           measure := m
           description := "Excessive spacing between voices " ++ toString (p1 + 1) ++ " and " ++ toString (p2 + 1)
           severity := "medium"
           voice1 := some (p1 + 1)
           voice2 := some (p2 + 1) }]
      else []) ++
      (if p1 == 0 && p2 == parts.length - 1 && d > 24 then
        [{ type := "Voice Spacing"
           measure := m
           description := "Total voice spacing exceeds two octaves"
           severity := "low"
           voice1 := some (p1 + 1)
           voice2 := some (p2 + 1) }]
      else []))

/-- Drives the nested measure/voice-pair loops of `check_voice_spacing` in
iteration order; an exception aborts the whole method (caught by its
method-level `except`), keeping only the findings of iterations already
completed. -/
def vsLoop (parts : List (List NoteEvent)) : List (Nat × Nat × Nat) → List HarmonyError
  | [] => []
  | (m, p1, p2) :: rest =>
    match spacingPairFindings parts m p1 p2 with
    | Except.error _ => []
    | Except.ok es => es ++ vsLoop parts rest

/-- `HarmonyAnalyzer.check_voice_spacing`.  The first iteration's
single-argument `measures` call raises, the method-level `except` logs and
returns, so this check never emits a finding. -/
def check_voice_spacing (s : Score) : List HarmonyError :=
  vsLoop s.parts
    ((List.range' 1 (measuresSliceLen s)).flatMap fun m =>
      (List.range (s.parts.length - 1)).flatMap fun p1 =>
        (List.range' (p1 + 1) (s.parts.length - (p1 + 1))).map fun p2 => (m, p1, p2))

/-- Loop body of `check_hidden_fifths_octaves` at position `i` between the
first (`soprano`) and last (`bass`) voices. -/
def hfoStep (soprano bass : List NoteEvent) (numParts i : Nat) : List HarmonyError :=
  match soprano[i]?, soprano[i+1]?, bass[i]?, bass[i+1]? with
  | some s0, some s1, some b0, some b1 =>
    let sopranoMotion := s1.pitch.ps - s0.pitch.ps
    let bassMotion := b1.pitch.ps - b0.pitch.ps
    if sopranoMotion * bassMotion > 0 then
      if simpleName s1.pitch b1.pitch == "P5" || simpleName s1.pitch b1.pitch == "P8" then
        if sopranoMotion.natAbs > 2 then
          [{ type := "Hidden Perfect Interval"
             measure := s0.measureNumber
             description := "Hidden " ++ simpleName s1.pitch b1.pitch ++ " between outer voices"
             severity := "low"
             voice1 := some 1
             voice2 := some numParts }]
        else []
      else []
    else []
  | _, _, _, _ => []

/-- `HarmonyAnalyzer.check_hidden_fifths_octaves`. -/
def check_hidden_fifths_octaves (s : Score) : List HarmonyError :=
  match s.parts with
  | [] => []
  | p0 :: _ =>
    (List.range (p0.length - 1)).flatMap (hfoStep p0 (s.parts.getLastD []) s.parts.length)

/-- Traditional vocal ranges of `check_voice_ranges` (MIDI pitch numbers). -/
def vocalRanges : List (String × Int × Int) :=
  [("Soprano", 60, 79), ("Alto", 55, 74), ("Tenor", 48, 67), ("Bass", 40, 60)]

def voiceTypes : List String :=
  ["Soprano", "Alto", "Tenor", "Bass"]

def rangeFor (vt : String) : Int × Int :=
  ((vocalRanges.find? fun r => r.1 == vt).map fun r => r.2).getD (0, 0)

/-- Per-note findings of `check_voice_ranges`: one finding when the pitch
is below the voice type's floor, one when above its ceiling. -/
def noteRangeFindings (vt : String) (partIdx : Nat) (n : NoteEvent) : List HarmonyError :=
  let lo := (rangeFor vt).1
  let hi := (rangeFor vt).2
  (if n.pitch.ps < lo then
    [{ type := "Voice Range"
       measure := n.measureNumber
       description := vt ++ " voice below traditional range"
       severity := "medium"
       voice1 := some (partIdx + 1)
       voice2 := none }]
  else []) ++
  (if n.pitch.ps > hi then
    [{ type := "Voice Range"
       measure := n.measureNumber
       description := vt ++ " voice above traditional range"
       severity := "medium"
       voice1 := some (partIdx + 1)
       voice2 := none }]
  else [])

/-- `HarmonyAnalyzer.check_voice_ranges`; voices beyond the fourth are not
range-checked. -/
def check_voice_ranges (s : Score) : List HarmonyError :=
  (List.range s.parts.length).flatMap fun partIdx =>
    if partIdx < voiceTypes.length then
      (s.parts.getD partIdx []).flatMap (noteRangeFindings (voiceTypes.getD partIdx "") partIdx)
    else []

/-- Loop body of `check_melodic_intervals` at position `i`. -/
def melStep (partIdx : Nat) (notes : List NoteEvent) (i : Nat) : List HarmonyError :=
  match notes[i]?, notes[i+1]? with
  | some a, some b =>
    let nm := simpleName a.pitch b.pitch
    (if isAugmentedName nm then
      [{ type := "Melodic Interval"
         measure := a.measureNumber
         description := "Augmented interval in voice " ++ toString (partIdx + 1)
         severity := "high"
         voice1 := some (partIdx + 1)
         voice2 := none }]
    else []) ++
    (if nm == "M7" || nm == "d5" || nm == "A4" then
      [{ type := "Melodic Interval"
         measure := a.measureNumber
         description := "Difficult melodic interval (" ++ nm ++ ") in voice " ++ toString (partIdx + 1)
         severity := "medium"
         voice1 := some (partIdx + 1)
         voice2 := none }]
    else [])
  | _, _ => []

/-- `HarmonyAnalyzer.check_melodic_intervals`. -/
def check_melodic_intervals (s : Score) : List HarmonyError :=
  (List.range s.parts.length).flatMap fun partIdx =>
    let notes := s.parts.getD partIdx []
    (List.range (notes.length - 1)).flatMap (melStep partIdx notes)

/-- Body of the chord walk of `check_harmonic_rhythm`, threading
`prev_chord`, the `rapid_changes` counter and the `same_chord_count`
counter. -/
def hrLoop : Option ChordInfo → Nat → Nat → List ChordInfo → List HarmonyError
  | _, _, _, [] => []
  | none, r, sc, c :: rest => hrLoop (some c) r sc rest
  | some p, r, sc, c :: rest =>
    let rapidPart : List HarmonyError × Nat :=
      if c.offset - p.offset < 1 then
        (if r + 1 > 3 then
          [{ type := "Harmonic Rhythm"
             measure := c.measureNumber
             description := "Too many rapid chord changes"
             severity := "low"
             voice1 := none
             voice2 := none }]
        else [], r + 1)
      else ([], 0)
    let staticPart : List HarmonyError × Nat :=
      if p.pitches == c.pitches then
        (if sc + 1 > 4 then
          [{ type := "Harmonic Rhythm"
             measure := c.measureNumber
             description := "Static harmony for too long"
             severity := "low"
             voice1 := none
             voice2 := none }]
        else [], sc + 1)
      else ([], 0)
    rapidPart.1 ++ staticPart.1 ++ hrLoop (some c) rapidPart.2 staticPart.2 rest

/-- `HarmonyAnalyzer.check_harmonic_rhythm`. -/
def check_harmonic_rhythm (s : Score) : List HarmonyError :=
  hrLoop none 0 0 s.chordified

/-- The per-measure note collection of `check_doubled_leading_tone`
(`measure_notes`, extended part by part): the first part's single-argument
`measures` call raises, so the collection fails for any score with at
least one part. -/
def collectMeasureNotes (parts : List (List NoteEvent)) (designator : String) :
    Except String (List NoteEvent) :=
  match parts with
  | [] => Except.ok []
  | p :: rest =>
    match measuresWithSingleArg p designator with
    | Except.error e => Except.error e
    | Except.ok ns =>
      match collectMeasureNotes rest designator with
      | Except.error e => Except.error e
      | Except.ok acc => Except.ok (ns ++ acc)

def dltFinding (m : Nat) : HarmonyError :=
  { type := "Doubled Leading Tone"
    measure := m
    description := "Leading tone appears in multiple voices"
    severity := "high"
    voice1 := none
    voice2 := none }

/-- The measure loop of `check_doubled_leading_tone`: each iteration first
collects the measure's notes — which raises for any non-empty part list,
aborting the loop into the method-level `except` — and only then counts
the note events whose pitch name equals the leading tone's, appending the
finding when the count exceeds one. -/
def dltLoop (key : Key) (parts : List (List NoteEvent)) : List Nat → List HarmonyError
  | [] => []
  | m :: rest =>
    match collectMeasureNotes parts (toString m ++ "/" ++ toString m) with
    | Except.error _ => []
    | Except.ok measureNotes =>
      (if (measureNotes.filter fun n => n.pitch.name == key.degree7).length > 1 then
        [dltFinding m]
      else []) ++ dltLoop key parts rest

/-- `HarmonyAnalyzer.check_doubled_leading_tone`; skipped when no key was
detected.  With a key, the loop's first action raises `TypeError`
(single-argument `measures` call), the method-level `except` swallows it,
and no finding is ever emitted. -/
def check_doubled_leading_tone (key? : Option Key) (s : Score) : List HarmonyError :=
  match key? with
  | none => []
  | some key => dltLoop key s.parts (List.range' 1 (measuresSliceLen s))

/-- `HarmonyAnalyzer.validate_score`. -/
def validate_score : Option Score → Bool
  | none => false
  | some s =>
    !s.parts.isEmpty && decide (2 ≤ s.parts.length) && s.parts.all fun p => !p.isEmpty

/-- The full sequence of checks run by `HarmonyAnalyzer.analyze` once
validation has passed, appending to `self.errors` in source order. -/
def computeErrors (s : Score) (key? : Option Key) : List HarmonyError :=
  check_parallel_fifths s ++ check_parallel_octaves s ++ check_voice_leading s ++
  check_chord_progressions s ++ check_cadences key? s ++ check_voice_spacing s ++
  check_hidden_fifths_octaves s ++ check_voice_ranges s ++ check_melodic_intervals s ++
  check_harmonic_rhythm s ++ check_doubled_leading_tone key? s

/-- Mutable state of a `HarmonyAnalyzer` instance: the loaded score, the
detected key, and the accumulated error list. -/
structure AnalyzerState where
  score : Option Score
  key : Option Key
  errors : List HarmonyError
deriving DecidableEq, Repr

def invalidScoreMsg : String :=
  "Analysis failed: Invalid score - cannot perform analysis"

/-- `HarmonyAnalyzer.analyze`: resets `self.errors`, validates, then runs
every check; on validation failure the raised exception is re-raised with
the `Analysis failed:` prefix and `self.errors` stays empty. -/
def analyzeFn (st : AnalyzerState) : AnalyzerState × Except String (List HarmonyError) :=
  match st.score, validate_score st.score with
  | some s, true =>
    ({ st with errors := computeErrors s st.key }, Except.ok (computeErrors s st.key))
  | some _, false => ({ st with errors := [] }, Except.error invalidScoreMsg)
  | none, _ => ({ st with errors := [] }, Except.error invalidScoreMsg)

/-- One entry of the `error_types` dictionary built by
`identify_common_problems`: a finding type with its running count and the
severity recorded at its first occurrence. -/
structure ProblemTally where
  ptype : String
  count : Nat
  severity : String
deriving DecidableEq, Repr

/-- One iteration of the tally loop of `identify_common_problems`
(insertion-ordered dictionary update). -/
def tallyAdd (acc : List ProblemTally) (e : HarmonyError) : List ProblemTally :=
  if acc.any fun p => p.ptype == e.type then
    acc.map fun p => if p.ptype == e.type then { p with count := p.count + 1 } else p
  else acc ++ [{ ptype := e.type, count := 1, severity := e.severity }]

/-- The `error_types` dictionary of `identify_common_problems` in
insertion order. -/
def tally (errors : List HarmonyError) : List ProblemTally :=
  errors.foldl tallyAdd []

/-- Severity weights used by the ranking of `identify_common_problems`. -/
def sevWeight : String → Nat
  | "high" => 3
  | "medium" => 2
  | "low" => 1
  | _ => 0

/-- Comparison realising Python's `sorted(..., key=(count, weight),
reverse=True)`: `a` may precede `b` when its (count, severity-weight) key
is lexicographically at least `b`'s; the stable sort keeps insertion order
on ties. -/
def rankGE (a b : ProblemTally) : Bool :=
  b.count < a.count || (a.count == b.count && sevWeight b.severity ≤ sevWeight a.severity)

/-- The ranked problem list of `identify_common_problems` before string
formatting: every type tallied, stably sorted by count then severity
weight descending, truncated to the top five. -/
def rankedProblems (errors : List HarmonyError) : List ProblemTally :=
  ((tally errors).mergeSort rankGE).take 5

/-- `utils.identify_common_problems`. -/
def identify_common_problems (errors : List HarmonyError) : List String :=
  (rankedProblems errors).map fun p =>
    p.ptype ++ ": " ++ toString p.count ++ " occurrences (" ++ p.severity ++ " severity)"

/-- `utils.categorize_errors_by_severity` (counts per fixed bucket). -/
def categorize_errors_by_severity (errors : List HarmonyError) : Nat × Nat × Nat :=
  ((errors.filter fun e => e.severity == "high").length,
   (errors.filter fun e => e.severity == "medium").length,
   (errors.filter fun e => e.severity == "low").length)

/-- Number of findings of type `t` in a finding list. -/
def countType (errors : List HarmonyError) (t : String) : Nat :=
  (errors.filter fun e => e.type == t).length

/-- Follows the claim's words (C7), for comparison with the source: the
key's leading-tone pitch class appears *simultaneously in two or more
distinct voices* within measure `m` — i.e. at some time-aligned position
`k`, at least two voices sound a note of measure `m` whose pitch name is
the leading tone's. -/
def leadingToneSimultaneouslyDoubled (key : Key) (s : Score) (m : Nat) : Bool :=
  (List.range (s.parts.foldr (fun p acc => max p.length acc) 0)).any fun k =>
    2 ≤ ((List.range s.parts.length).filter fun v =>
      match (s.parts.getD v [])[k]? with
      | some n => n.measureNumber == m && n.pitch.name == key.degree7
      | none => false).length

/-- C major: scale-degree names consumed by the checks. -/
def cMajorKey : Key :=
  { degree1 := "C", degree4 := "F", degree5 := "G", degree7 := "B" }

/-- G major: scale-degree names consumed by the checks. -/
def gMajorKey : Key :=
  { degree1 := "G", degree4 := "C", degree5 := "D", degree7 := "F#" }

/-- The single finding emitted by a parallel-fifths hit of voice pair
`(p1, p2)` whose first upper-voice note is `a1`. -/
def pfFinding (p1 p2 : Nat) (a1 : NoteEvent) : HarmonyError :=
  { type := "Parallel Fifths"
    measure := a1.measureNumber
    description := "Parallel fifth movement between voices " ++ toString (p1 + 1) ++ " and " ++ toString (p2 + 1)
    severity := "high"
    voice1 := some (p1 + 1)
    voice2 := some (p2 + 1) }

theorem pfStep_eq_of_p5_similar
    (notes1 notes2 : List NoteEvent) (p1 p2 k : Nat) (a1 b1 a2 b2 : NoteEvent)
    (ha1 : notes1[k]? = some a1) (hb1 : notes1[k+1]? = some b1)
    (ha2 : notes2[k]? = some a2) (hb2 : notes2[k+1]? = some b2)
    (hc : simpleName a1.pitch a2.pitch = "P5")
    (hn : simpleName b1.pitch b2.pitch = "P5")
    (hm : (b1.pitch.ps - a1.pitch.ps) * (b2.pitch.ps - a2.pitch.ps) > 0) :
    pfStep notes1 notes2 p1 p2 k = [pfFinding p1 p2 a1] := by
  simp only [pfStep, ha1, hb1, ha2, hb2, hc, hn]
  simp [hm, pfFinding]

theorem pfStep_eq_nil_of_contrary
    (notes1 notes2 : List NoteEvent) (p1 p2 k : Nat) (a1 b1 a2 b2 : NoteEvent)
    (ha1 : notes1[k]? = some a1) (hb1 : notes1[k+1]? = some b1)
    (ha2 : notes2[k]? = some a2) (hb2 : notes2[k+1]? = some b2)
    (hm : (b1.pitch.ps - a1.pitch.ps) * (b2.pitch.ps - a2.pitch.ps) < 0) :
    pfStep notes1 notes2 p1 p2 k = [] := by
  simp only [pfStep, ha1, hb1, ha2, hb2]
  have : ¬ ((b1.pitch.ps - a1.pitch.ps) * (b2.pitch.ps - a2.pitch.ps) > 0) := by omega
  simp [this]

theorem mem_check_parallel_fifths
    (s : Score) (notes1 notes2 : List NoteEvent) (p1 p2 k : Nat) (f : HarmonyError)
    (hp1 : s.parts[p1]? = some notes1) (hp2 : s.parts[p2]? = some notes2)
    (hlt : p1 < p2) (hk : k + 1 < notes1.length)
    (hf : f ∈ pfStep notes1 notes2 p1 p2 k) :
    f ∈ check_parallel_fifths s := by
  obtain ⟨h1, -⟩ := List.getElem?_eq_some_iff.mp hp1
  obtain ⟨h2, -⟩ := List.getElem?_eq_some_iff.mp hp2
  have hlen : 2 ≤ s.parts.length := by omega
  unfold check_parallel_fifths
  rw [if_neg (by omega)]
  refine List.mem_flatMap.mpr ⟨p1, List.mem_range.mpr (by omega), ?_⟩
  refine List.mem_flatMap.mpr ⟨p2, List.mem_range'.mpr ⟨p2 - (p1 + 1), by omega, by omega⟩, ?_⟩
  rw [List.getD_eq_getElem?_getD, hp1, List.getD_eq_getElem?_getD, hp2]
  simp only [Option.getD_some]
  exact List.mem_flatMap.mpr ⟨k, List.mem_range.mpr (by omega), hf⟩

/-- C1: for a validated score and a voice pair `p1 < p2`, when the
time-aligned intervals at positions `k` and `k+1` are both perfect fifths
and the two voices move in similar motion, the parallel-fifths check emits
exactly one high-severity `Parallel Fifths` finding for that position,
whose measure is the measure number of the upper voice's note at `k`, and
that finding is in the output of `check_parallel_fifths`; with contrary
motion and the same intervals, the position contributes no finding. -/
theorem parallel_fifths_similar_one_contrary_none
    (s : Score) (notes1 notes2 : List NoteEvent) (p1 p2 k : Nat)
    (a1 b1 a2 b2 : NoteEvent)
    (hv : validate_score (some s) = true)
    (hp1 : s.parts[p1]? = some notes1) (hp2 : s.parts[p2]? = some notes2)
    (hlt : p1 < p2)
    (ha1 : notes1[k]? = some a1) (hb1 : notes1[k+1]? = some b1)
    (ha2 : notes2[k]? = some a2) (hb2 : notes2[k+1]? = some b2)
    (hc : simpleName a1.pitch a2.pitch = "P5")
    (hn : simpleName b1.pitch b2.pitch = "P5") :
    ((b1.pitch.ps - a1.pitch.ps) * (b2.pitch.ps - a2.pitch.ps) > 0 →
      pfStep notes1 notes2 p1 p2 k = [pfFinding p1 p2 a1] ∧
      pfFinding p1 p2 a1 ∈ check_parallel_fifths s) ∧
    ((b1.pitch.ps - a1.pitch.ps) * (b2.pitch.ps - a2.pitch.ps) < 0 →
      pfStep notes1 notes2 p1 p2 k = []) := by
  constructor
  · intro hm
    have heq := pfStep_eq_of_p5_similar notes1 notes2 p1 p2 k a1 b1 a2 b2
      ha1 hb1 ha2 hb2 hc hn hm
    refine ⟨heq, mem_check_parallel_fifths s notes1 notes2 p1 p2 k _ hp1 hp2 hlt ?_ ?_⟩
    · exact (List.getElem?_eq_some_iff.mp hb1).1
    · rw [heq]; exact List.mem_singleton.mpr rfl
  · intro hm
    exact pfStep_eq_nil_of_contrary notes1 notes2 p1 p2 k a1 b1 a2 b2 ha1 hb1 ha2 hb2 hm

def wUpperSim : List NoteEvent := [⟨⟨72, "C"⟩, 1⟩, ⟨⟨74, "D"⟩, 1⟩]

def wLowerSim : List NoteEvent := [⟨⟨65, "F"⟩, 1⟩, ⟨⟨67, "G"⟩, 1⟩]

def wLowerCon : List NoteEvent := [⟨⟨65, "F"⟩, 1⟩, ⟨⟨55, "G"⟩, 1⟩]

def wScoreSim : Score := { parts := [wUpperSim, wLowerSim], measureCount := 1, chordified := [] }

def wScoreCon : Score := { parts := [wUpperSim, wLowerCon], measureCount := 1, chordified := [] }

/-- Witness for C1 at concrete voices: a P5→P5 move in similar motion
yields exactly the one finding and it appears in the analyzer's output; the
same upper motion against a contrary-moving lower voice (also P5→P5)
yields none. -/
theorem parallel_fifths_similar_one_contrary_none_witness :
    (pfStep wUpperSim wLowerSim 0 1 0 = [pfFinding 0 1 ⟨⟨72, "C"⟩, 1⟩] ∧
      pfFinding 0 1 ⟨⟨72, "C"⟩, 1⟩ ∈ check_parallel_fifths wScoreSim) ∧
    pfStep wUpperSim wLowerCon 0 1 0 = [] :=
  ⟨(parallel_fifths_similar_one_contrary_none wScoreSim wUpperSim wLowerSim 0 1 0
      ⟨⟨72, "C"⟩, 1⟩ ⟨⟨74, "D"⟩, 1⟩ ⟨⟨65, "F"⟩, 1⟩ ⟨⟨67, "G"⟩, 1⟩
      (by decide) rfl rfl (by decide) rfl rfl rfl rfl (by decide) (by decide)).1 (by decide),
   (parallel_fifths_similar_one_contrary_none wScoreCon wUpperSim wLowerCon 0 1 0
      ⟨⟨72, "C"⟩, 1⟩ ⟨⟨74, "D"⟩, 1⟩ ⟨⟨65, "F"⟩, 1⟩ ⟨⟨55, "G"⟩, 1⟩
      (by decide) rfl (by decide) (by decide) rfl rfl rfl rfl (by decide) (by decide)).2 (by decide)⟩

/-- C10: when the time-aligned intervals at `k` and `k+1` are both perfect
fifths or both perfect octaves but at least one of the two voices keeps
its pitch between `k` and `k+1` (oblique motion / repeated note), neither
the parallel-fifths nor the parallel-octaves loop body emits a finding for
that position: the motion-product test `motion1 * motion2 > 0` requires
both deltas non-zero with equal sign. -/
theorem oblique_motion_emits_nothing
    (notes1 notes2 : List NoteEvent) (p1 p2 k : Nat) (a1 b1 a2 b2 : NoteEvent)
    (ha1 : notes1[k]? = some a1) (hb1 : notes1[k+1]? = some b1)
    (ha2 : notes2[k]? = some a2) (hb2 : notes2[k+1]? = some b2)
    (hnm : (simpleName a1.pitch a2.pitch = "P5" ∧ simpleName b1.pitch b2.pitch = "P5") ∨
           (simpleName a1.pitch a2.pitch = "P8" ∧ simpleName b1.pitch b2.pitch = "P8"))
    (hzero : b1.pitch.ps = a1.pitch.ps ∨ b2.pitch.ps = a2.pitch.ps) :
    pfStep notes1 notes2 p1 p2 k = [] ∧ poStep notes1 notes2 p1 p2 k = [] := by
  have hprod : ¬ ((b1.pitch.ps - a1.pitch.ps) * (b2.pitch.ps - a2.pitch.ps) > 0) := by
    rcases hzero with h | h <;> rw [h] <;> simp
  constructor
  · simp only [pfStep, ha1, hb1, ha2, hb2]
    simp [hprod]
  · simp only [poStep, ha1, hb1, ha2, hb2]
    simp [hprod]

def wLowerObl : List NoteEvent := [⟨⟨65, "F"⟩, 1⟩, ⟨⟨65, "F"⟩, 1⟩]

def wUpperObl : List NoteEvent := [⟨⟨72, "C"⟩, 1⟩, ⟨⟨72, "C"⟩, 1⟩]

/-- Witness for C10: a perfect fifth held into another perfect fifth where
the lower voice repeats its pitch produces no finding from either loop
body. -/
theorem oblique_motion_emits_nothing_witness :
    pfStep wUpperObl wLowerObl 0 1 0 = [] ∧ poStep wUpperObl wLowerObl 0 1 0 = [] :=
  oblique_motion_emits_nothing wUpperObl wLowerObl 0 1 0
    ⟨⟨72, "C"⟩, 1⟩ ⟨⟨72, "C"⟩, 1⟩ ⟨⟨65, "F"⟩, 1⟩ ⟨⟨65, "F"⟩, 1⟩
    rfl rfl rfl rfl (Or.inl ⟨by decide, by decide⟩) (Or.inl rfl)

theorem mem_vlLoop_of_mem_step
    (parts : List (List NoteEvent)) (partIdx : Nat) (notes : List NoteEvent)
    (f : HarmonyError) (j : Nat)
    (hstep : ∀ cl, f ∈ (vlStep parts partIdx notes j cl).1) :
    ∀ (fuel i cl : Nat), i ≤ j → j < i + fuel →
      f ∈ vlLoop parts partIdx notes cl i fuel := by
  intro fuel
  induction fuel with
  | zero => intro i cl h1 h2; omega
  | succ n ih =>
    intro i cl h1 h2
    simp only [vlLoop]
    rcases Nat.eq_or_lt_of_le h1 with rfl | hlt
    · exact List.mem_append_left _ (hstep cl)
    · exact List.mem_append_right _ (ih (i + 1) _ hlt (by omega))

theorem crossing_mem_vlStep
    (parts : List (List NoteEvent)) (partIdx : Nat) (notes low : List NoteEvent)
    (k : Nat) (a b c : NoteEvent)
    (hlow : parts[partIdx + 1]? = some low)
    (ha : notes[k]? = some a) (hb : notes[k+1]? = some b) (hc : low[k]? = some c)
    (hcross : a.pitch.ps < c.pitch.ps) :
    ∀ cl, crossingFinding partIdx a ∈ (vlStep parts partIdx notes k cl).1 := by
  intro cl
  have hplen : partIdx + 1 < parts.length := (List.getElem?_eq_some_iff.mp hlow).1
  simp only [vlStep, ha, hb]
  refine List.mem_append_right _ ?_
  rw [if_pos (by omega), List.getD_eq_getElem?_getD, hlow, Option.getD_some, hc]
  simp [hcross]

/-- C8 (amended): the source compares only adjacent voice pairs, and only
at positions strictly before the last note of the upper voice that also
exist in the lower voice; under those conditions, an upper voice sounding
below the adjacent lower voice yields a medium-severity `Voice Crossing`
finding in `check_voice_leading`'s output. -/
theorem voice_crossing_adjacent_emitted
    (s : Score) (partIdx k : Nat) (notes low : List NoteEvent) (a b c : NoteEvent)
    (hn : s.parts[partIdx]? = some notes) (hlow : s.parts[partIdx + 1]? = some low)
    (ha : notes[k]? = some a) (hb : notes[k+1]? = some b) (hc : low[k]? = some c)
    (hcross : a.pitch.ps < c.pitch.ps) :
    crossingFinding partIdx a ∈ check_voice_leading s := by
  have hplen : partIdx < s.parts.length := (List.getElem?_eq_some_iff.mp hn).1
  have hk : k + 1 < notes.length := (List.getElem?_eq_some_iff.mp hb).1
  unfold check_voice_leading
  refine List.mem_flatMap.mpr ⟨partIdx, List.mem_range.mpr hplen, ?_⟩
  rw [List.getD_eq_getElem?_getD, hn, Option.getD_some]
  exact mem_vlLoop_of_mem_step s.parts partIdx notes (crossingFinding partIdx a) k
    (crossing_mem_vlStep s.parts partIdx notes low k a b c hlow ha hb hc hcross)
    (notes.length - 1) 0 0 (Nat.zero_le k) (by omega)

def wCrossScore : Score :=
  { parts := [[⟨⟨50, "D"⟩, 1⟩, ⟨⟨52, "E"⟩, 1⟩], [⟨⟨60, "C"⟩, 1⟩, ⟨⟨60, "C"⟩, 1⟩]]
    measureCount := 1
    chordified := [] }

/-- Witness for the amended C8: with two notes per voice, the upper voice
below the lower one at position 0 is reported. -/
theorem voice_crossing_adjacent_emitted_witness :
    crossingFinding 0 ⟨⟨50, "D"⟩, 1⟩ ∈ check_voice_leading wCrossScore :=
  voice_crossing_adjacent_emitted wCrossScore 0 0
    [⟨⟨50, "D"⟩, 1⟩, ⟨⟨52, "E"⟩, 1⟩] [⟨⟨60, "C"⟩, 1⟩, ⟨⟨60, "C"⟩, 1⟩]
    ⟨⟨50, "D"⟩, 1⟩ ⟨⟨52, "E"⟩, 1⟩ ⟨⟨60, "C"⟩, 1⟩
    rfl rfl rfl rfl rfl (by decide)

def cxCrossScore : Score :=
  { parts := [[⟨⟨50, "D"⟩, 1⟩], [⟨⟨60, "C"⟩, 1⟩]]
    measureCount := 1
    chordified := [] }

/-- Counterexample to C8 as stated: a validated two-voice score whose
upper voice lies below the lower voice at time-aligned position 0, yet the
whole analysis emits no `Voice Crossing` finding — the loop never reaches
the last position of a voice. -/
theorem voice_crossing_missed_at_last_position :
    validate_score (some cxCrossScore) = true ∧
    (cxCrossScore.parts.getD 0 [])[0]? = some ⟨⟨50, "D"⟩, 1⟩ ∧
    (cxCrossScore.parts.getD 1 [])[0]? = some ⟨⟨60, "C"⟩, 1⟩ ∧
    ((50 : Int) < 60) ∧
    (computeErrors cxCrossScore none).filter (fun e => e.type == "Voice Crossing") = [] := by
  refine ⟨rfl, rfl, rfl, by decide, ?_⟩
  rfl

/-- C4: a score with exactly one voice, with no voices, or with some voice
containing zero note events fails validation, so `analyze` raises before
any analyzer executes and the accumulated error list stays empty — no
finding of any type is produced. -/
theorem analyze_rejects_invalid_score
    (st : AnalyzerState) (s : Score) (hs : st.score = some s)
    (hbad : s.parts.length = 1 ∨ s.parts = [] ∨ ∃ p ∈ s.parts, p = []) :
    analyzeFn st = ({ st with errors := [] }, Except.error invalidScoreMsg) := by
  have hval : validate_score st.score = false := by
    rw [hs]
    simp only [validate_score, Bool.and_eq_false_iff]
    rcases hbad with h | h | ⟨p, hp, rfl⟩
    · left; right; simp [h]
    · left; right; simp [h]
    · right
      simp only [List.all_eq_false]
      exact ⟨[], hp, by simp⟩
  unfold analyzeFn
  rw [hs] at hval ⊢
  rw [hval]

def oneVoiceScore : Score :=
  { parts := [[⟨⟨60, "C"⟩, 1⟩]], measureCount := 1, chordified := [] }

/-- Witness for C4: a one-voice score in a state that still holds an old
finding is rejected and the error list is reset to empty. -/
theorem analyze_rejects_invalid_score_witness :
    oneVoiceScore.parts.length = 1 ∧
    analyzeFn { score := some oneVoiceScore, key := none,
                errors := [{ type := "Stale", measure := 1, description := "old",
                             severity := "low", voice1 := none, voice2 := none }] } =
      ({ score := some oneVoiceScore, key := none, errors := [] },
        Except.error invalidScoreMsg) :=
  ⟨rfl,
   analyze_rejects_invalid_score
     { score := some oneVoiceScore, key := none,
       errors := [{ type := "Stale", measure := 1, description := "old",
                    severity := "low", voice1 := none, voice2 := none }] }
     oneVoiceScore rfl (Or.inl rfl)⟩

/-- C5: on a state whose score passes validation, running `analyze` twice
in succession returns the same finding list both times, in the same order,
and leaves the same state — the second run resets the error list and
recomputes it from the unchanged score and key. -/
theorem analyze_idempotent
    (st : AnalyzerState) (hv : validate_score st.score = true) :
    (analyzeFn ((analyzeFn st).1)).2 = (analyzeFn st).2 ∧
    (analyzeFn ((analyzeFn st).1)).1 = (analyzeFn st).1 := by
  obtain ⟨sc, ky, es⟩ := st
  obtain ⟨s, rfl⟩ : ∃ s, sc = some s := by
    cases h : sc with
    | none => rw [h] at hv; simp [validate_score] at hv
    | some s => exact ⟨s, rfl⟩
  have hv' : validate_score (some s) = true := hv
  have h1 : analyzeFn ⟨some s, ky, es⟩ =
      (⟨some s, ky, computeErrors s ky⟩, Except.ok (computeErrors s ky)) := by
    unfold analyzeFn
    rw [hv']
  have h2 : analyzeFn ⟨some s, ky, computeErrors s ky⟩ =
      (⟨some s, ky, computeErrors s ky⟩, Except.ok (computeErrors s ky)) := by
    unfold analyzeFn
    rw [hv']
  rw [h1, h2]
  exact ⟨rfl, rfl⟩

def twoVoiceScore : Score :=
  { parts := [[⟨⟨72, "C"⟩, 1⟩], [⟨⟨60, "C"⟩, 1⟩]], measureCount := 1, chordified := [] }

/-- Witness for C5 on a concrete valid two-voice score. -/
theorem analyze_idempotent_witness :
    validate_score (some twoVoiceScore) = true ∧
    ((analyzeFn ((analyzeFn { score := some twoVoiceScore, key := none, errors := [] }).1)).2 =
      (analyzeFn { score := some twoVoiceScore, key := none, errors := [] }).2 ∧
     (analyzeFn ((analyzeFn { score := some twoVoiceScore, key := none, errors := [] }).1)).1 =
      (analyzeFn { score := some twoVoiceScore, key := none, errors := [] }).1) :=
  ⟨rfl, analyze_idempotent { score := some twoVoiceScore, key := none, errors := [] } rfl⟩

/-- The below-range finding for voice index 0 produced by
`check_voice_ranges`. -/
def sopranoLowFinding (n : NoteEvent) : HarmonyError :=
  { type := "Voice Range"
    measure := n.measureNumber
    description := "Soprano voice below traditional range"
    severity := "medium"
    voice1 := some 1
    voice2 := none }

/-- C9: the Soprano floor is MIDI 60; on a validated score, a voice-0 note
of MIDI pitch 59 produces exactly one medium `Voice Range` finding, which
appears in `check_voice_ranges`'s output, while a voice-0 note of MIDI
pitch 60 produces none. -/
theorem soprano_floor_sixty
    (s : Score) (part0 : List NoteEvent) (n : NoteEvent)
    (hv : validate_score (some s) = true)
    (h0 : s.parts[0]? = some part0) (hn : n ∈ part0) :
    (rangeFor "Soprano").1 = 60 ∧
    (n.pitch.ps = 59 →
      noteRangeFindings "Soprano" 0 n = [sopranoLowFinding n] ∧
      sopranoLowFinding n ∈ check_voice_ranges s) ∧
    (n.pitch.ps = 60 → noteRangeFindings "Soprano" 0 n = []) := by
  refine ⟨rfl, ?_, ?_⟩
  · intro h59
    have heq : noteRangeFindings "Soprano" 0 n = [sopranoLowFinding n] := by
      simp only [noteRangeFindings, h59, sopranoLowFinding]
      simp [rangeFor, vocalRanges]
    refine ⟨heq, ?_⟩
    have hlen : 0 < s.parts.length := (List.getElem?_eq_some_iff.mp h0).1
    unfold check_voice_ranges
    refine List.mem_flatMap.mpr ⟨0, List.mem_range.mpr hlen, ?_⟩
    rw [if_pos (by simp [voiceTypes]), List.getD_eq_getElem?_getD, h0, Option.getD_some]
    refine List.mem_flatMap.mpr ⟨n, hn, ?_⟩
    rw [show voiceTypes.getD 0 "" = "Soprano" from rfl, heq]
    exact List.mem_singleton.mpr rfl
  · intro h60
    simp only [noteRangeFindings, h60]
    simp [rangeFor, vocalRanges]

def wRangeScore : Score :=
  { parts := [[⟨⟨59, "B"⟩, 1⟩, ⟨⟨60, "C"⟩, 1⟩], [⟨⟨48, "C"⟩, 1⟩, ⟨⟨48, "C"⟩, 1⟩]]
    measureCount := 1
    chordified := [] }

/-- Witness for C9 at MIDI 59 and 60 in voice 0 of a validated score. -/
theorem soprano_floor_sixty_witness :
    ((rangeFor "Soprano").1 = 60 ∧
      (noteRangeFindings "Soprano" 0 ⟨⟨59, "B"⟩, 1⟩ = [sopranoLowFinding ⟨⟨59, "B"⟩, 1⟩] ∧
        sopranoLowFinding ⟨⟨59, "B"⟩, 1⟩ ∈ check_voice_ranges wRangeScore)) ∧
    noteRangeFindings "Soprano" 0 ⟨⟨60, "C"⟩, 1⟩ = [] :=
  ⟨⟨(soprano_floor_sixty wRangeScore [⟨⟨59, "B"⟩, 1⟩, ⟨⟨60, "C"⟩, 1⟩] ⟨⟨59, "B"⟩, 1⟩
      (by decide) rfl (by decide)).1,
    (soprano_floor_sixty wRangeScore [⟨⟨59, "B"⟩, 1⟩, ⟨⟨60, "C"⟩, 1⟩] ⟨⟨59, "B"⟩, 1⟩
      (by decide) rfl (by decide)).2.1 rfl⟩,
   (soprano_floor_sixty wRangeScore [⟨⟨59, "B"⟩, 1⟩, ⟨⟨60, "C"⟩, 1⟩] ⟨⟨60, "C"⟩, 1⟩
      (by decide) rfl (by decide)).2.2 rfl⟩

theorem dltLoop_eq_nil (key : Key) (parts : List (List NoteEvent)) :
    ∀ ms : List Nat, dltLoop key parts ms = [] := by
  intro ms
  induction ms with
  | nil => rfl
  | cons m rest ih =>
    cases parts with
    | nil => simp [dltLoop, collectMeasureNotes, ih]
    | cons p ps => simp [dltLoop, collectMeasureNotes, measuresWithSingleArg]

theorem vsLoop_eq_nil (parts : List (List NoteEvent)) :
    ∀ ts : List (Nat × Nat × Nat), vsLoop parts ts = [] := by
  intro ts
  cases ts with
  | nil => rfl
  | cons t rest =>
    obtain ⟨m, p1, p2⟩ := t
    rfl

/-- `check_voice_spacing` never emits a finding: its first iteration's
single-argument `measures` call raises and the method-level `except`
swallows the exception. -/
theorem check_voice_spacing_never_emits (s : Score) : check_voice_spacing s = [] :=
  vsLoop_eq_nil s.parts _

def cxDltSimScore : Score :=
  { parts := [[⟨⟨71, "B"⟩, 1⟩], [⟨⟨59, "B"⟩, 1⟩]]
    measureCount := 1
    chordified := [] }

/-- C7: the leading-tone check is dead code — for every score, with or
without a detected key, `check_doubled_leading_tone` emits nothing,
because its single-argument `measures` call raises `TypeError` on the
first loop iteration and the method-level `except` swallows it.  At the
failing input — a validated C-major score whose two voices sound the
leading tone B simultaneously at the first time-aligned position of
measure 1 — the claim requires one high `Doubled Leading Tone` finding,
yet the full analysis emits none. -/
theorem doubled_leading_tone_never_fires :
    (∀ (key? : Option Key) (s : Score), check_doubled_leading_tone key? s = []) ∧
    validate_score (some cxDltSimScore) = true ∧
    leadingToneSimultaneouslyDoubled cMajorKey cxDltSimScore 1 = true ∧
    (computeErrors cxDltSimScore (some cMajorKey)).filter
      (fun e => e.type == "Doubled Leading Tone") = [] := by
  refine ⟨?_, rfl, rfl, ?_⟩
  · intro key? s
    cases key? with
    | none => rfl
    | some key => exact dltLoop_eq_nil key s.parts _
  · rfl

def cxCadScore : Score :=
  { parts := [[⟨⟨74, "D"⟩, 1⟩], [⟨⟨55, "G"⟩, 1⟩]]
    measureCount := 2
    chordified :=
      [{ root := ⟨62, "D"⟩, inversion := 0, measureNumber := 1,
         commonName := "major triad", offset := 0, pitches := [⟨62, "D"⟩, ⟨66, "F#"⟩, ⟨69, "A"⟩] },
       { root := ⟨55, "G"⟩, inversion := 0, measureNumber := 2,
         commonName := "major triad", offset := 4, pitches := [⟨55, "G"⟩, ⟨59, "B"⟩, ⟨62, "D"⟩] }] }

/-- C2, failing input: in G major the final two reduced chords have roots
at scale degrees 5 then 1 (D then G) with the final chord in root
position, yet the analysis emits one high-severity `Cadence` finding
("Non-standard final cadence") instead of none — `check_cadences` matches
the literal pitch names `G`/`C` rather than key-relative degrees. -/
theorem cadence_v_i_root_position_flagged_outside_c_major :
    gMajorKey.degree5 = "D" ∧ gMajorKey.degree1 = "G" ∧
    cxCadScore.chordified.map (fun c => c.root.name) = ["D", "G"] ∧
    cxCadScore.chordified.map (fun c => c.inversion) = [0, 0] ∧
    validate_score (some cxCadScore) = true ∧
    check_cadences (some gMajorKey) cxCadScore =
      [{ type := "Cadence", measure := 2, description := "Non-standard final cadence",
         severity := "high", voice1 := none, voice2 := none }] :=
  ⟨rfl, rfl, rfl, rfl, rfl, rfl⟩

def cxProgGScore : Score :=
  { parts := [[⟨⟨69, "A"⟩, 1⟩], [⟨⟨57, "A"⟩, 1⟩]]
    measureCount := 2
    chordified :=
      [{ root := ⟨57, "A"⟩, inversion := 0, measureNumber := 1,
         commonName := "minor triad", offset := 0, pitches := [⟨57, "A"⟩, ⟨60, "C"⟩, ⟨64, "E"⟩] },
       { root := ⟨62, "D"⟩, inversion := 0, measureNumber := 1,
         commonName := "major triad", offset := 4, pitches := [⟨62, "D"⟩, ⟨66, "F#"⟩, ⟨69, "A"⟩] },
       { root := ⟨60, "C"⟩, inversion := 0, measureNumber := 2,
         commonName := "major triad", offset := 8, pitches := [⟨60, "C"⟩, ⟨64, "E"⟩, ⟨67, "G"⟩] }] }

def cxProgCScore : Score :=
  { parts := [[⟨⟨67, "G"⟩, 1⟩], [⟨⟨55, "G"⟩, 1⟩]]
    measureCount := 1
    chordified :=
      [{ root := ⟨55, "G"⟩, inversion := 0, measureNumber := 1,
         commonName := "major triad", offset := 0, pitches := [⟨55, "G"⟩, ⟨59, "B"⟩, ⟨62, "D"⟩] },
       { root := ⟨53, "F"⟩, inversion := 0, measureNumber := 1,
         commonName := "major triad", offset := 4, pitches := [⟨53, "F"⟩, ⟨57, "A"⟩, ⟨60, "C"⟩] }] }

def wProgC2Score : Score :=
  { parts := [[⟨⟨67, "G"⟩, 1⟩], [⟨⟨55, "G"⟩, 1⟩]]
    measureCount := 2
    chordified :=
      [{ root := ⟨60, "C"⟩, inversion := 0, measureNumber := 1,
         commonName := "major triad", offset := 0, pitches := [⟨60, "C"⟩, ⟨64, "E"⟩, ⟨67, "G"⟩] },
       { root := ⟨55, "G"⟩, inversion := 0, measureNumber := 1,
         commonName := "major triad", offset := 4, pitches := [⟨55, "G"⟩, ⟨59, "B"⟩, ⟨62, "D"⟩] },
       { root := ⟨53, "F"⟩, inversion := 0, measureNumber := 2,
         commonName := "major triad", offset := 8, pitches := [⟨53, "F"⟩, ⟨57, "A"⟩, ⟨60, "C"⟩] }] }

/-- C3, failing inputs: (a) in G major, consecutive reduced chords with
roots at scale degrees 5 then 4 (D then C) produce no `Weak Progression`
finding, because `check_chord_progressions` matches the literal names
`G`→`F`; (b) even in C major, roots G then F as the *first* two chords
produce no finding, because `prev_root` is assigned one iteration late and
the comparison only starts at the third chord; (c) the same G→F root
motion from the second chord on is flagged, confirming the embedding. -/
theorem weak_progression_checks_miss_degree_pairs :
    gMajorKey.degree5 = "D" ∧ gMajorKey.degree4 = "C" ∧
    cMajorKey.degree5 = "G" ∧ cMajorKey.degree4 = "F" ∧
    cxProgGScore.chordified.map (fun c => c.root.name) = ["A", "D", "C"] ∧
    check_chord_progressions cxProgGScore = [] ∧
    cxProgCScore.chordified.map (fun c => c.root.name) = ["G", "F"] ∧
    check_chord_progressions cxProgCScore = [] ∧
    check_chord_progressions wProgC2Score =
      [{ type := "Weak Progression", measure := 2, description := "V-IV progression (retrograde)",
         severity := "medium", voice1 := none, voice2 := none }] :=
  ⟨rfl, rfl, rfl, rfl, rfl, rfl, rfl, rfl, rfl⟩

theorem map_ptype_tallyAdd (acc : List ProblemTally) (e : HarmonyError) (t : String)
    (h : t ∈ acc.map ProblemTally.ptype ∨ t = e.type) :
    t ∈ (tallyAdd acc e).map ProblemTally.ptype := by
  unfold tallyAdd
  by_cases hany : acc.any (fun p => p.ptype == e.type) = true
  · rw [if_pos hany]
    have hsame : (acc.map fun p =>
        if p.ptype == e.type then { p with count := p.count + 1 } else p).map ProblemTally.ptype =
        acc.map ProblemTally.ptype := by
      rw [List.map_map]
      exact List.map_congr_left fun p _ => by by_cases hb : p.ptype = e.type <;> simp [hb]
    rw [hsame]
    rcases h with h | rfl
    · exact h
    · obtain ⟨p, hp, hbeq⟩ := List.any_eq_true.mp hany
      exact List.mem_map.mpr ⟨p, hp, (beq_iff_eq.mp hbeq)⟩
  · rw [if_neg hany, List.map_append]
    rcases h with h | rfl
    · exact List.mem_append_left _ h
    · exact List.mem_append_right _ (by simp)

theorem mem_map_ptype_tally_foldl (t : String) :
    ∀ (l : List HarmonyError) (acc : List ProblemTally),
      (t ∈ acc.map ProblemTally.ptype ∨ t ∈ l.map HarmonyError.type) →
      t ∈ (l.foldl tallyAdd acc).map ProblemTally.ptype := by
  intro l
  induction l with
  | nil => intro acc h; simpa using h
  | cons e rest ih =>
    intro acc h
    simp only [List.foldl_cons]
    apply ih
    rcases h with h | h
    · exact Or.inl (map_ptype_tallyAdd acc e t (Or.inl h))
    · simp only [List.map_cons, List.mem_cons] at h
      rcases h with rfl | h
      · exact Or.inl (map_ptype_tallyAdd acc e _ (Or.inr rfl))
      · exact Or.inr h

theorem rankGE_trans (a b c : ProblemTally) (hab : rankGE a b = true) (hbc : rankGE b c = true) :
    rankGE a c = true := by
  simp only [rankGE, Bool.or_eq_true, Bool.and_eq_true, decide_eq_true_eq, beq_iff_eq] at *
  omega

theorem rankGE_total (a b : ProblemTally) : rankGE a b || rankGE b a := by
  simp only [rankGE, Bool.or_eq_true, Bool.and_eq_true, decide_eq_true_eq, beq_iff_eq]
  omega

/-- C6 (amended): the ranked common-problems list contains every finding
type present in the list — types occurring only once included — whenever
at most five distinct types occur (beyond that the list is truncated to
the top five), and it is ordered by count descending, then severity weight
descending (high=3, medium=2, low=1, the severity being the one of the
type's first occurrence). -/
theorem common_problems_contain_and_ranked
    (errors : List HarmonyError) (t : String)
    (h1 : t ∈ errors.map HarmonyError.type)
    (h2 : (tally errors).length ≤ 5) :
    t ∈ (rankedProblems errors).map ProblemTally.ptype ∧
    (rankedProblems errors).Pairwise fun a b => rankGE a b = true := by
  have htall : t ∈ (tally errors).map ProblemTally.ptype :=
    mem_map_ptype_tally_foldl t errors [] (Or.inr h1)
  have hfull : rankedProblems errors = (tally errors).mergeSort rankGE := by
    unfold rankedProblems
    exact List.take_of_length_le (by rw [List.length_mergeSort]; exact h2)
  constructor
  · rw [hfull]
    obtain ⟨p, hp, rfl⟩ := List.mem_map.mp htall
    exact List.mem_map.mpr ⟨p, List.mem_mergeSort.mpr hp, rfl⟩
  · rw [hfull]
    exact List.sorted_mergeSort rankGE_trans rankGE_total (tally errors)

def wAggFindings : List HarmonyError :=
  [{ type := "Large Leap", measure := 1, description := "Large melodic leap of 13 semitones in voice 1",
     severity := "medium", voice1 := some 1, voice2 := none },
   { type := "Large Leap", measure := 2, description := "Large melodic leap of 14 semitones in voice 1",
     severity := "medium", voice1 := some 1, voice2 := none },
   { type := "Large Leap", measure := 3, description := "Large melodic leap of 15 semitones in voice 1",
     severity := "medium", voice1 := some 1, voice2 := none },
   { type := "Voice Crossing", measure := 1, description := "Voice 1 crosses below voice 2",
     severity := "medium", voice1 := some 1, voice2 := some 2 }]

/-- Witness for the amended C6 on the spec's aggregation example: three
`Large Leap` and one `Voice Crossing` findings, `Large Leap` appears in
the ranked list. -/
theorem common_problems_contain_and_ranked_witness :
    ("Large Leap" ∈ wAggFindings.map HarmonyError.type ∧ (tally wAggFindings).length ≤ 5) ∧
    "Large Leap" ∈ (rankedProblems wAggFindings).map ProblemTally.ptype :=
  ⟨⟨by decide, by decide⟩,
   (common_problems_contain_and_ranked wAggFindings "Large Leap" (by decide) (by decide)).1⟩

def cxOneFinding : List HarmonyError :=
  [{ type := "Voice Crossing", measure := 1, description := "Voice 1 crosses below voice 2",
     severity := "medium", voice1 := some 1, voice2 := some 2 }]

/-- Counterexample to C6 as stated: a list whose only finding type occurs
exactly once still appears in the ranked common-problems output — the
source ranks all tallied types (top five), with no more-than-once
filter. -/
theorem single_count_type_is_ranked :
    countType cxOneFinding "Voice Crossing" = 1 ∧
    (rankedProblems cxOneFinding).map ProblemTally.ptype = ["Voice Crossing"] := by
  refine ⟨rfl, ?_⟩
  show (((tally cxOneFinding).mergeSort rankGE).take 5).map ProblemTally.ptype = _
  rw [show tally cxOneFinding =
    [{ ptype := "Voice Crossing", count := 1, severity := "medium" }] from rfl]
  rw [List.mergeSort_singleton]
  rfl
